import Mathlib

/-!
Verification model of the work-stealing thread-pool core in
`src/rayon-core/src/registry.rs` and the `FromParallelIterator`
implementations in `src/src/par_iter/from_par_iter.rs`.

The Rust code is concurrent and stateful; we embed it shallowly:
atomics become explicit `Nat` fields with wrap-around at `2 ^ 64`,
panics and assertion failures become `Except PanicKind`, and calls
into the Sleep subsystem are recorded as events.  Jobs are modelled
as opaque `Nat` identifiers.
-/

/-- Width of `usize` on the 64-bit platforms the crate targets. -/
def USIZE : Nat := 2 ^ 64

/-- Width of `u32`; conversions with `as u32` truncate modulo this. -/
def U32 : Nat := 2 ^ 32

/-- Value of `std::usize::MAX`. -/
def USIZE_MAX : Nat := USIZE - 1

/-- The distinct panics and assertion failures the modelled code can raise. -/
inductive PanicKind where
  /-- `assert!(previous != std::usize::MAX, "overflow in registry ref count")`. -/
  | refCountOverflow
  /-- `debug_assert!(previous != 0, "registry ref count incremented from zero")`. -/
  | refCountIncrementedFromZero
  /-- `debug_assert_ne!(... , 0, "inject() sees state.terminate as true")`. -/
  | injectAfterTerminate
  /-- `Registry::current` on a non-worker thread reaches the stubbed
  global-registry path, which is `panic!()` in the source. -/
  | globalRegistryStub
  /-- `assert!(injected && !worker_thread.is_null())` inside the closure a
  `StackJob` wraps in `in_worker_cold` / `in_worker_cross`. -/
  | assertInjectedOnWorker
  deriving DecidableEq, Repr

/-- Kind of a worker deque: `Worker::new_lifo()` or `Worker::new_fifo()`. -/
inductive DequeKind where
  | lifo
  | fifo
  deriving DecidableEq, Repr

/-- Calls made into the Sleep subsystem, recorded as events.
`newInjectedJobs` carries the arguments of
`sleep.new_injected_jobs(usize::MAX, len as u32, queue_was_empty)`. -/
inductive SleepEvent where
  | newInjectedJobs (worker : Nat) (count : Nat) (queueWasEmpty : Bool)
  deriving DecidableEq, Repr

/-- State of a `Registry`: the per-worker deque kinds, the injector queue
(`injected_jobs`), the recorded Sleep notifications, the atomic
`terminate_count`, the per-worker `terminate` latches of `thread_infos`,
and the workers that have been tickled by `set_and_tickle_one`. -/
structure RegistryModel where
  dequeKinds : List DequeKind
  injectedJobs : List Nat
  sleepEvents : List SleepEvent
  terminateCount : Nat
  terminateLatch : List Bool
  tickled : List Nat
  deriving DecidableEq, Repr

/-- `Injector::push`: the injector is an MPMC FIFO queue; pushing appends. -/
def Injector.push (q : List Nat) (j : Nat) : List Nat := q ++ [j]

/-- `Registry::inject` (registry.rs lines 391-415): debug-assert the
terminate counter is non-zero, observe whether the injector queue is
empty, push each `JobRef` of the slice in order, then call
`sleep.new_injected_jobs(usize::MAX, len as u32, queue_was_empty)`;
the `as u32` conversion truncates the length modulo `2 ^ 32`. -/
def Registry.inject (r : RegistryModel) (jobs : List Nat) :
    Except PanicKind RegistryModel :=
  if r.terminateCount = 0 then
    Except.error PanicKind.injectAfterTerminate
  else
    let queueWasEmpty := r.injectedJobs.isEmpty
    let r1 := jobs.foldl
      (fun acc j => { acc with injectedJobs := Injector.push acc.injectedJobs j }) r
    Except.ok { r1 with
      sleepEvents := r1.sleepEvents ++
        [SleepEvent.newInjectedJobs USIZE_MAX (jobs.length % U32)
          queueWasEmpty] }

/-- `Registry::increment_terminate_count` (registry.rs lines 533-540):
`fetch_add(1)` on the counter, a debug assertion that the previous value
was not zero, and an assertion that it was not `usize::MAX`. -/
def Registry.increment_terminate_count (r : RegistryModel) :
    Except PanicKind RegistryModel :=
  let previous := r.terminateCount
  if previous = 0 then
    Except.error PanicKind.refCountIncrementedFromZero
  else if previous = USIZE_MAX then
    Except.error PanicKind.refCountOverflow
  else
    Except.ok { r with terminateCount := (previous + 1) % USIZE }

/-- `Registry::terminate` (registry.rs lines 545-551): wrapping
`fetch_sub(1)`; when the previous value was 1 (the counter reached zero),
call `set_and_tickle_one` on every worker's terminate latch. -/
def Registry.terminate (r : RegistryModel) : RegistryModel :=
  let old := r.terminateCount
  let r1 := { r with terminateCount := (old + (USIZE - 1)) % USIZE }
  if old = 1 then
    { r1 with
      terminateLatch := List.replicate r1.terminateLatch.length true
      tickled := r1.tickled ++ List.range r1.terminateLatch.length }
  else
    r1

/-- `Registry::current` (registry.rs lines 276-287): on a worker thread
return that worker's registry; on a non-worker thread the source reaches
`panic!()` (the `global_registry()` call is commented out).  The worker
context is `none` off-pool, `some rid` on a worker of registry `rid`. -/
def Registry.current (workerCtx : Option Nat) : Except PanicKind Nat :=
  match workerCtx with
  | none => Except.error PanicKind.globalRegistryStub
  | some rid => Except.ok rid

/-- The flat configuration consumed by `Registry::new`:
`get_num_threads()` (already resolved to a concrete request) and
`get_breadth_first()`. -/
structure Builder where
  numThreads : Nat
  breadthFirst : Bool
  deriving DecidableEq, Repr

/-- The deque-creation loop of `Registry::new` (registry.rs lines
229-240): one deque per index in `0..n`, FIFO when breadth-first was
requested and LIFO otherwise. -/
def mkDeques (breadthFirst : Bool) (n : Nat) : List DequeKind :=
  (List.range n).map
    (fun _ => if breadthFirst then DequeKind.fifo else DequeKind.lifo)

/-- Construction part of `Registry::new` (registry.rs lines 218-252):
`n = min(builder.get_num_threads(), max_num_threads())` deque pairs and a
fresh registry with an empty injector and `terminate_count = 1`.
`cap` stands for `crate::max_num_threads()`, whose body is outside the
given sources; per the spec it is the platform cap. -/
def mkRegistry (cap : Nat) (b : Builder) : RegistryModel :=
  let n := min b.numThreads cap
  { dequeKinds := mkDeques b.breadthFirst n
    injectedJobs := []
    sleepEvents := []
    terminateCount := 1
    terminateLatch := List.replicate n false
    tickled := [] }

/-- Outcome of `builder.get_spawn_handler().spawn(thread)` for one worker. -/
inductive SpawnOutcome where
  | ok
  | err (e : Nat)
  deriving DecidableEq, Repr

/-- The spawn loop of `Registry::new` (registry.rs lines 257-268):
spawn workers `i, i+1, ...` while `rem` remain; stop at the first
spawn failure and return its error payload. -/
def spawnWorkers (spawn : Nat → SpawnOutcome) : Nat → Nat → Option Nat
  | _, 0 => none
  | i, rem + 1 =>
    match spawn i with
    | SpawnOutcome.ok => spawnWorkers spawn (i + 1) rem
    | SpawnOutcome.err e => some e

/-- Build errors surfaced by `Registry::new`. -/
inductive BuildError where
  | ioError (e : Nat)
  deriving DecidableEq, Repr

/-- `Registry::new` (registry.rs lines 218-274): construct the registry,
arm the `Terminator` guard, spawn each worker; on the first failure
return `Err(IOError(e))` with the guard firing `terminate()` on the way
out; on success `mem::forget` the guard and return the registry. -/
def Registry.new (cap : Nat) (b : Builder) (spawn : Nat → SpawnOutcome) :
    Except (BuildError × RegistryModel) RegistryModel :=
  let r := mkRegistry cap b
  match spawnWorkers spawn 0 r.dequeKinds.length with
  | some e => Except.error (BuildError.ioError e, Registry.terminate r)
  | none => Except.ok r

/-- `LinkedList` model of `ParallelIterator::reduce_with`: combine the
mapped pieces with `op`; `none` on an empty iterator.  The tree shape a
real parallel run uses is immaterial here because the operation the
source passes (list append) is associative; the canonical left fold
represents every schedule. -/
def reduce_with (op : List Nat → List Nat → List Nat) :
    List (List Nat) → Option (List Nat)
  | [] => none
  | x :: xs => some (xs.foldl op x)

/-- `<LinkedList<T> as FromParallelIterator>::from_par_iter`
(from_par_iter.rs lines 59-68): map each element to a singleton list,
reduce by `list1.append(&mut list2); list1`, and default to the empty
list when the iterator produced nothing. -/
def LinkedList.from_par_iter (l : List Nat) : List Nat :=
  (reduce_with (fun a b => a ++ b) (l.map (fun e => [e]))).getD []

-- ///////////////////////////////////////////////////////////////////////
-- Helper lemmas

theorem USIZE_eq : USIZE = 18446744073709551616 := by norm_num [USIZE]

theorem USIZE_MAX_eq : USIZE_MAX = 18446744073709551615 := by
  norm_num [USIZE_MAX, USIZE]

theorem injector_fold_append (r : RegistryModel) (jobs : List Nat) :
    (jobs.foldl
      (fun acc j => { acc with injectedJobs := Injector.push acc.injectedJobs j })
      r) =
    { r with injectedJobs := r.injectedJobs ++ jobs } := by
  induction jobs generalizing r with
  | nil => simp
  | cons j rest ih =>
    simp only [List.foldl_cons]
    rw [ih]
    simp [Injector.push]

theorem mkDeques_eq_replicate (bf : Bool) (n : Nat) :
    mkDeques bf n =
      List.replicate n (if bf then DequeKind.fifo else DequeKind.lifo) := by
  refine List.eq_replicate_iff.mpr ⟨?_, ?_⟩
  · simp [mkDeques]
  · intro x hx
    simp only [mkDeques, List.mem_map] at hx
    obtain ⟨i, _, hi⟩ := hx
    exact hi.symm

theorem reduce_singletons (xs : List Nat) :
    ∀ acc : List Nat,
      (xs.map (fun e => [e])).foldl (fun a b => a ++ b) acc = acc ++ xs := by
  induction xs with
  | nil => intro acc; simp
  | cons y ys ih =>
    intro acc
    simp only [List.map_cons, List.foldl_cons]
    rw [ih]
    simp

theorem mkDeques_length (bf : Bool) (n : Nat) : (mkDeques bf n).length = n := by
  simp [mkDeques]

-- ///////////////////////////////////////////////////////////////////////
-- Claims

/-- C4: `Registry::inject(jobs)` observes the was-empty flag of the
injector before pushing, pushes every job of the slice in order, then
informs Sleep with the job count (as the source's `len as u32`, i.e.
truncated modulo `2 ^ 32`; for any slice shorter than `2 ^ 32` that is
exactly the number of jobs) and the previously observed flag; its
precondition is a non-zero terminate counter, and calling it when the
counter is zero is an assertion failure. -/
theorem claim_C4 (r : RegistryModel) (jobs : List Nat) :
    (r.terminateCount ≠ 0 →
      Registry.inject r jobs =
        Except.ok { r with
          injectedJobs := r.injectedJobs ++ jobs
          sleepEvents := r.sleepEvents ++
            [SleepEvent.newInjectedJobs USIZE_MAX (jobs.length % U32)
              r.injectedJobs.isEmpty] }) ∧
    (r.terminateCount ≠ 0 → jobs.length < U32 →
      Registry.inject r jobs =
        Except.ok { r with
          injectedJobs := r.injectedJobs ++ jobs
          sleepEvents := r.sleepEvents ++
            [SleepEvent.newInjectedJobs USIZE_MAX jobs.length
              r.injectedJobs.isEmpty] }) ∧
    (r.terminateCount = 0 →
      Registry.inject r jobs = Except.error PanicKind.injectAfterTerminate) := by
  have hok : r.terminateCount ≠ 0 →
      Registry.inject r jobs =
        Except.ok { r with
          injectedJobs := r.injectedJobs ++ jobs
          sleepEvents := r.sleepEvents ++
            [SleepEvent.newInjectedJobs USIZE_MAX (jobs.length % U32)
              r.injectedJobs.isEmpty] } := by
    intro h
    unfold Registry.inject
    rw [if_neg h, injector_fold_append]
  refine ⟨hok, ?_, ?_⟩
  · intro h hlen
    rw [hok h, Nat.mod_eq_of_lt hlen]
  · intro h
    unfold Registry.inject
    rw [if_pos h]

theorem claim_C4_witness :
    ((⟨[], [5], [], 1, [], []⟩ : RegistryModel).terminateCount ≠ 0 ∧
      Registry.inject ⟨[], [5], [], 1, [], []⟩ [7, 9] =
        Except.ok ⟨[], [5, 7, 9],
          [SleepEvent.newInjectedJobs USIZE_MAX (2 % U32) false],
          1, [], []⟩) ∧
    (([7, 9] : List Nat).length < U32 ∧
      Registry.inject ⟨[], [5], [], 1, [], []⟩ [7, 9] =
        Except.ok ⟨[], [5, 7, 9],
          [SleepEvent.newInjectedJobs USIZE_MAX 2 false], 1, [], []⟩) ∧
    ((⟨[], [], [], 0, [], []⟩ : RegistryModel).terminateCount = 0 ∧
      Registry.inject ⟨[], [], [], 0, [], []⟩ [7] =
        Except.error PanicKind.injectAfterTerminate) := by
  have hlen : ([7, 9] : List Nat).length < U32 := by
    show (2 : Nat) < U32
    norm_num [U32]
  refine ⟨⟨by decide, ?_⟩, ⟨hlen, ?_⟩, ⟨rfl, ?_⟩⟩
  · exact (claim_C4 ⟨[], [5], [], 1, [], []⟩ [7, 9]).1 (by decide)
  · exact (claim_C4 ⟨[], [5], [], 1, [], []⟩ [7, 9]).2.1 (by decide) hlen
  · exact (claim_C4 ⟨[], [], [], 0, [], []⟩ [7]).2.2 rfl

/-- C5: the claim says `Registry::current()` on a non-worker thread
returns the process-global registry; in the source that branch is the
stubbed global-registry path and executes `panic!()`.  On a worker
thread it does return that worker's own registry. -/
theorem claim_C5 :
    Registry.current none = Except.error PanicKind.globalRegistryStub ∧
    ∀ rid : Nat, Registry.current (some rid) = Except.ok rid := by
  exact ⟨rfl, fun _ => rfl⟩

/-- C6: `Registry::new` creates `n = min(requested, platform cap)` deque
pairs, FIFO when breadth-first is requested and LIFO otherwise, and the
registry starts with terminate counter 1. -/
theorem claim_C6 (cap : Nat) (b : Builder) :
    (mkRegistry cap b).dequeKinds.length = min b.numThreads cap ∧
    (mkRegistry cap b).dequeKinds =
      List.replicate (min b.numThreads cap)
        (if b.breadthFirst then DequeKind.fifo else DequeKind.lifo) ∧
    (mkRegistry cap b).terminateCount = 1 := by
  refine ⟨?_, ?_, rfl⟩
  · simp [mkRegistry, mkDeques]
  · simp only [mkRegistry]
    exact mkDeques_eq_replicate b.breadthFirst (min b.numThreads cap)

/-- C7: `increment_terminate_count` adds one to the terminate counter and
`terminate` subtracts one; exactly when a `terminate` call brings the
counter from 1 to 0 it sets every worker's terminate latch and tickles
every worker, and a `terminate` that leaves the counter non-zero sets no
latch. -/
theorem claim_C7 (r : RegistryModel) (hr : r.terminateCount < USIZE) :
    (r.terminateCount ≠ 0 → r.terminateCount ≠ USIZE_MAX →
      Registry.increment_terminate_count r =
        Except.ok { r with terminateCount := r.terminateCount + 1 }) ∧
    (r.terminateCount ≠ 0 →
      (Registry.terminate r).terminateCount = r.terminateCount - 1) ∧
    (r.terminateCount = 1 →
      (Registry.terminate r).terminateLatch =
          List.replicate r.terminateLatch.length true ∧
        (Registry.terminate r).tickled =
          r.tickled ++ List.range r.terminateLatch.length) ∧
    (r.terminateCount ≠ 1 →
      (Registry.terminate r).terminateLatch = r.terminateLatch) := by
  refine ⟨?_, ?_, ?_, ?_⟩
  · intro h0 hmax
    unfold Registry.increment_terminate_count
    rw [if_neg h0, if_neg hmax]
    have hlt : r.terminateCount + 1 < USIZE := by
      rw [USIZE_eq]
      rw [USIZE_eq] at hr
      rw [USIZE_MAX_eq] at hmax
      omega
    rw [Nat.mod_eq_of_lt hlt]
  · intro h0
    unfold Registry.terminate
    rcases eq_or_ne r.terminateCount 1 with h1 | h1
    · rw [if_pos h1]
      show (r.terminateCount + (USIZE - 1)) % USIZE = r.terminateCount - 1
      rw [USIZE_eq]
      rw [USIZE_eq] at hr
      omega
    · rw [if_neg h1]
      show (r.terminateCount + (USIZE - 1)) % USIZE = r.terminateCount - 1
      rw [USIZE_eq]
      rw [USIZE_eq] at hr
      omega
  · intro h1
    unfold Registry.terminate
    rw [if_pos h1]
    exact ⟨rfl, rfl⟩
  · intro h1
    unfold Registry.terminate
    rw [if_neg h1]

theorem claim_C7_witness :
    ((⟨[], [], [], 2, [false, false], []⟩ : RegistryModel).terminateCount < USIZE ∧
      Registry.increment_terminate_count ⟨[], [], [], 2, [false, false], []⟩ =
        Except.ok ⟨[], [], [], 3, [false, false], []⟩) ∧
    ((⟨[], [], [], 1, [false, false], []⟩ : RegistryModel).terminateCount < USIZE ∧
      (Registry.terminate ⟨[], [], [], 1, [false, false], []⟩).terminateCount = 0 ∧
      (Registry.terminate ⟨[], [], [], 1, [false, false], []⟩).terminateLatch =
        [true, true] ∧
      (Registry.terminate ⟨[], [], [], 1, [false, false], []⟩).tickled = [0, 1]) ∧
    (Registry.terminate ⟨[], [], [], 2, [false, false], []⟩).terminateLatch =
      [false, false] := by
  have h2 : (2 : Nat) < USIZE := by
    rw [USIZE_eq]; omega
  have h1 : (1 : Nat) < USIZE := by
    rw [USIZE_eq]; omega
  refine ⟨⟨h2, ?_⟩, ⟨h1, ?_, ?_, ?_⟩, ?_⟩
  · exact (claim_C7 ⟨[], [], [], 2, [false, false], []⟩ h2).1
      (by decide) (by rw [USIZE_MAX_eq]; norm_num)
  · exact (claim_C7 ⟨[], [], [], 1, [false, false], []⟩ h1).2.1 (by decide)
  · exact ((claim_C7 ⟨[], [], [], 1, [false, false], []⟩ h1).2.2.1 rfl).1
  · exact ((claim_C7 ⟨[], [], [], 1, [false, false], []⟩ h1).2.2.1 rfl).2
  · exact (claim_C7 ⟨[], [], [], 2, [false, false], []⟩ h2).2.2.2 (by decide)

/-- C9: `increment_terminate_count` panics with the ref-count overflow
assertion exactly when the previous counter value is `usize::MAX`, and a
successful increment adds one and never wraps the counter to zero. -/
theorem claim_C9 (r : RegistryModel) (hr : r.terminateCount < USIZE) :
    (r.terminateCount = USIZE_MAX →
      Registry.increment_terminate_count r =
        Except.error PanicKind.refCountOverflow) ∧
    (∀ r2 : RegistryModel,
      Registry.increment_terminate_count r = Except.ok r2 →
        r2.terminateCount = r.terminateCount + 1 ∧ r2.terminateCount ≠ 0) := by
  have hU : USIZE = 2 ^ 64 := rfl
  constructor
  · intro hmax
    unfold Registry.increment_terminate_count
    have h0 : r.terminateCount ≠ 0 := by
      rw [hmax, USIZE_MAX_eq]; norm_num
    rw [if_neg h0, if_pos hmax]
  · intro r2 hok
    unfold Registry.increment_terminate_count at hok
    by_cases h0 : r.terminateCount = 0
    · rw [if_pos h0] at hok; exact absurd hok (by simp)
    by_cases hmax : r.terminateCount = USIZE_MAX
    · rw [if_neg h0, if_pos hmax] at hok; exact absurd hok (by simp)
    rw [if_neg h0, if_neg hmax] at hok
    have hlt : r.terminateCount + 1 < USIZE := by
      rw [USIZE_eq]
      rw [USIZE_eq] at hr
      rw [USIZE_MAX_eq] at hmax
      omega
    rw [Nat.mod_eq_of_lt hlt] at hok
    simp only [Except.ok.injEq] at hok
    rw [← hok]
    refine ⟨rfl, ?_⟩
    show r.terminateCount + 1 ≠ 0
    omega

theorem claim_C9_witness :
    ((⟨[], [], [], USIZE_MAX, [], []⟩ : RegistryModel).terminateCount < USIZE ∧
      Registry.increment_terminate_count ⟨[], [], [], USIZE_MAX, [], []⟩ =
        Except.error PanicKind.refCountOverflow) ∧
    (Registry.increment_terminate_count ⟨[], [], [], 5, [], []⟩ =
        Except.ok ⟨[], [], [], 6, [], []⟩ ∧
      (6 : Nat) = 5 + 1 ∧ (6 : Nat) ≠ 0) := by
  have hmaxlt : USIZE_MAX < USIZE := by
    rw [USIZE_MAX_eq, USIZE_eq]; omega
  have h5 : (5 : Nat) < USIZE := by
    rw [USIZE_eq]; omega
  have hstep : Registry.increment_terminate_count ⟨[], [], [], 5, [], []⟩ =
      Except.ok ⟨[], [], [], 6, [], []⟩ := by
    unfold Registry.increment_terminate_count
    rw [if_neg (by norm_num), if_neg (by rw [USIZE_MAX_eq]; norm_num)]
    show (Except.ok (⟨[], [], [], (5 + 1) % USIZE, [], []⟩ : RegistryModel) :
        Except PanicKind RegistryModel) =
      Except.ok (⟨[], [], [], 6, [], []⟩ : RegistryModel)
    rw [USIZE_eq]
  refine ⟨⟨hmaxlt, ?_⟩, hstep, ?_⟩
  · exact (claim_C9 ⟨[], [], [], USIZE_MAX, [], []⟩ hmaxlt).1 rfl
  · exact (claim_C9 ⟨[], [], [], 5, [], []⟩ h5).2 ⟨[], [], [], 6, [], []⟩ hstep

/-- C8: when spawning a worker fails in `Registry::new`, the function
returns `Err(IOError(error))` carrying the first failure, and on that
early return the `Terminator` guard fires `terminate()`, driving the
terminate counter from 1 to 0 and setting every worker's terminate
latch; on the all-successes path the guard is forgotten and
`terminate()` is not called. -/
theorem claim_C8 (cap : Nat) (b : Builder) (spawn : Nat → SpawnOutcome) :
    (∀ e : Nat, spawnWorkers spawn 0 (min b.numThreads cap) = some e →
      Registry.new cap b spawn =
        Except.error
          (BuildError.ioError e, Registry.terminate (mkRegistry cap b)) ∧
      (Registry.terminate (mkRegistry cap b)).terminateCount = 0 ∧
      (Registry.terminate (mkRegistry cap b)).terminateLatch =
        List.replicate (min b.numThreads cap) true) ∧
    (spawnWorkers spawn 0 (min b.numThreads cap) = none →
      Registry.new cap b spawn = Except.ok (mkRegistry cap b) ∧
      (mkRegistry cap b).terminateCount = 1 ∧
      (mkRegistry cap b).terminateLatch =
        List.replicate (min b.numThreads cap) false) := by
  have hlen : (mkRegistry cap b).dequeKinds.length = min b.numThreads cap := by
    simp [mkRegistry, mkDeques_length]
  have hcount : (Registry.terminate (mkRegistry cap b)).terminateCount = 0 := by
    unfold Registry.terminate
    rw [if_pos (show (mkRegistry cap b).terminateCount = 1 from rfl)]
    show (1 + (USIZE - 1)) % USIZE = 0
    rw [USIZE_eq]
  have hlatch : (Registry.terminate (mkRegistry cap b)).terminateLatch =
      List.replicate (min b.numThreads cap) true := by
    unfold Registry.terminate
    rw [if_pos (show (mkRegistry cap b).terminateCount = 1 from rfl)]
    show List.replicate (mkRegistry cap b).terminateLatch.length true = _
    simp [mkRegistry]
  constructor
  · intro e he
    refine ⟨?_, hcount, hlatch⟩
    show (match spawnWorkers spawn 0 (mkRegistry cap b).dequeKinds.length with
      | some e => Except.error
          (BuildError.ioError e, Registry.terminate (mkRegistry cap b))
      | none => Except.ok (mkRegistry cap b)) =
      Except.error (BuildError.ioError e, Registry.terminate (mkRegistry cap b))
    rw [hlen, he]
  · intro hnone
    refine ⟨?_, rfl, ?_⟩
    · show (match spawnWorkers spawn 0 (mkRegistry cap b).dequeKinds.length with
        | some e => Except.error
            (BuildError.ioError e, Registry.terminate (mkRegistry cap b))
        | none => Except.ok (mkRegistry cap b)) =
        Except.ok (mkRegistry cap b)
      rw [hlen, hnone]
    · simp [mkRegistry]

/-- Spawn strategy for the witness: the worker of index 1 fails with
error payload 7. -/
def c8failSpawn : Nat → SpawnOutcome :=
  fun i => if i = 1 then SpawnOutcome.err 7 else SpawnOutcome.ok

/-- Spawn strategy for the witness: every spawn succeeds. -/
def c8okSpawn : Nat → SpawnOutcome := fun _ => SpawnOutcome.ok

theorem claim_C8_witness :
    (spawnWorkers c8failSpawn 0 (min 3 2) = some 7 ∧
      Registry.new 2 ⟨3, false⟩ c8failSpawn =
        Except.error
          (BuildError.ioError 7, Registry.terminate (mkRegistry 2 ⟨3, false⟩)) ∧
      (Registry.terminate (mkRegistry 2 ⟨3, false⟩)).terminateCount = 0 ∧
      (Registry.terminate (mkRegistry 2 ⟨3, false⟩)).terminateLatch =
        List.replicate (min 3 2) true) ∧
    (spawnWorkers c8okSpawn 0 (min 3 2) = none ∧
      Registry.new 2 ⟨3, false⟩ c8okSpawn =
        Except.ok (mkRegistry 2 ⟨3, false⟩) ∧
      (mkRegistry 2 ⟨3, false⟩).terminateCount = 1 ∧
      (mkRegistry 2 ⟨3, false⟩).terminateLatch =
        List.replicate (min 3 2) false) := by
  have hfail : spawnWorkers c8failSpawn 0 (min 3 2) = some 7 := by
    decide
  have hok : spawnWorkers c8okSpawn 0 (min 3 2) = none := by
    decide
  exact ⟨⟨hfail, (claim_C8 2 ⟨3, false⟩ c8failSpawn).1 7 hfail⟩,
    ⟨hok, (claim_C8 2 ⟨3, false⟩ c8okSpawn).2 hok⟩⟩

/-- C10: `LinkedList::from_par_iter` returns the empty list on an empty
iterator and otherwise exactly the items of the iterator (singleton
wrapping followed by the append reduction reproduces the input). -/
theorem claim_C10 (l : List Nat) : LinkedList.from_par_iter l = l := by
  cases l with
  | nil => rfl
  | cons x xs =>
    unfold LinkedList.from_par_iter reduce_with
    simp only [List.map_cons]
    rw [show ((xs.map fun e => [e]).foldl (fun a b => a ++ b) [x] : List Nat) =
      [x] ++ xs from reduce_singletons xs [x]]
    rfl

-- ///////////////////////////////////////////////////////////////////////
-- `Registry::in_worker` and its cold / cross paths (registry.rs 441-511)

/-- Latch a `StackJob` is paired with in `in_worker`: the thread-local
`LockLatch` of the cold path, or `SpinLatch::cross` of the cross path. -/
inductive LatchKind where
  | threadLocalLock
  | spinCross
  deriving DecidableEq, Repr

/-- Observable steps of one `in_worker` call, in program order. -/
inductive IwEvent where
  /-- `StackJob::new(closure, latch)`. -/
  | createdStackJob (latch : LatchKind)
  /-- `self.inject(&[job.as_job_ref()])`. -/
  | injectedJob
  /-- `job.latch.wait_and_reset()` on the thread-local `LockLatch`. -/
  | lockWaitAndReset
  /-- `self.logger.log(|| Flush)` before leaving the cold path. -/
  | flushedLogs
  /-- `current_thread.wait_until(&job.latch)`: the calling worker keeps
  running its own wait loop until the cross latch is set. -/
  | crossWaitUntil
  deriving DecidableEq, Repr

/-- The closure both cold and cross paths wrap in a `StackJob`
(registry.rs 472-477 and 500-505): assert that the job was injected and
is running on a worker thread, then call `op(&*worker_thread, true)`.
`injected` and `onWorker` describe the execution context the scheduler
eventually runs the job in. -/
def stackJobClosure {R : Type} (op : Bool → R) (injected onWorker : Bool) :
    Except PanicKind R :=
  if injected && onWorker then Except.ok (op true)
  else Except.error PanicKind.assertInjectedOnWorker

/-- `Registry::in_worker_cold` (registry.rs 461-488): wrap `op` in a
`StackJob` paired with the thread-local `LockLatch`, inject it, wait on
the latch and reset it for reuse, flush the logs, and return the result
the job stored.  The job itself is executed by a worker in context
`(injected, onWorker)`. -/
def Registry.in_worker_cold {R : Type} (op : Bool → R)
    (injected onWorker : Bool) : Except PanicKind R × List IwEvent :=
  (stackJobClosure op injected onWorker,
   [IwEvent.createdStackJob LatchKind.threadLocalLock,
    IwEvent.injectedJob, IwEvent.lockWaitAndReset, IwEvent.flushedLogs])

/-- `Registry::in_worker_cross` (registry.rs 490-511): pair the job with
`SpinLatch::cross`, inject it, and have the calling worker run its own
wait loop (`current_thread.wait_until`) until the latch is set. -/
def Registry.in_worker_cross {R : Type} (op : Bool → R)
    (injected onWorker : Bool) : Except PanicKind R × List IwEvent :=
  (stackJobClosure op injected onWorker,
   [IwEvent.createdStackJob LatchKind.spinCross,
    IwEvent.injectedJob, IwEvent.crossWaitUntil])

/-- `Registry::in_worker` (registry.rs 441-459): dispatch on the caller.
`callerCtx` is `none` when `WorkerThread::current()` is null and
`some rid` when the caller is a worker of the registry with id `rid`;
`selfId` is this registry's id.  A null caller takes the cold path, a
worker of a different registry the cross path, and a worker of this
registry runs `op(&*worker_thread, false)` inline. -/
def Registry.in_worker {R : Type} (selfId : Nat) (callerCtx : Option Nat)
    (op : Bool → R) (injected onWorker : Bool) :
    Except PanicKind R × List IwEvent :=
  match callerCtx with
  | none => Registry.in_worker_cold op injected onWorker
  | some rid =>
    if rid ≠ selfId then Registry.in_worker_cross op injected onWorker
    else (Except.ok (op false), [])

/-- C1: `in_worker(op)` on a non-worker caller wraps `op` in a
`StackJob` with the thread-local `LockLatch`, injects it, waits on the
latch and resets it, and returns the result of `op` run with the
injected flag `true`; on a worker of a different registry it pairs the
job with `SpinLatch::cross`, injects, and keeps the calling worker in
its own wait loop until the latch is set; on a worker of this registry
it invokes `op(worker, false)` inline with no injection.  The injected
job is always executed with `injected = true` on a worker thread. -/
theorem claim_C1 {R : Type} (op : Bool → R) (selfId : Nat) :
    (Registry.in_worker selfId none op true true =
      (Except.ok (op true),
       [IwEvent.createdStackJob LatchKind.threadLocalLock,
        IwEvent.injectedJob, IwEvent.lockWaitAndReset,
        IwEvent.flushedLogs])) ∧
    (∀ rid : Nat, rid ≠ selfId →
      Registry.in_worker selfId (some rid) op true true =
        (Except.ok (op true),
         [IwEvent.createdStackJob LatchKind.spinCross,
          IwEvent.injectedJob, IwEvent.crossWaitUntil])) ∧
    (∀ injected onWorker : Bool,
      Registry.in_worker selfId (some selfId) op injected onWorker =
        (Except.ok (op false), [])) := by
  refine ⟨rfl, ?_, ?_⟩
  · intro rid hne
    show (if rid ≠ selfId then Registry.in_worker_cross op true true
      else (Except.ok (op false), [])) = _
    rw [if_pos hne]
    rfl
  · intro injected onWorker
    show (if selfId ≠ selfId
      then Registry.in_worker_cross op injected onWorker
      else (Except.ok (op false), [])) = _
    rw [if_neg (show ¬selfId ≠ selfId by simp)]

theorem claim_C1_witness :
    (Registry.in_worker 0 none (fun b => if b then 1 else 2) true true =
      (Except.ok 1,
       [IwEvent.createdStackJob LatchKind.threadLocalLock,
        IwEvent.injectedJob, IwEvent.lockWaitAndReset,
        IwEvent.flushedLogs])) ∧
    ((1 : Nat) ≠ 0 ∧
      Registry.in_worker 0 (some 1) (fun b => if b then 1 else 2) true true =
        (Except.ok 1,
         [IwEvent.createdStackJob LatchKind.spinCross,
          IwEvent.injectedJob, IwEvent.crossWaitUntil])) ∧
    (Registry.in_worker 0 (some 0) (fun b => if b then 1 else 2) false false =
      (Except.ok 2, [])) := by
  refine ⟨?_, ⟨by decide, ?_⟩, ?_⟩
  · exact (claim_C1 (fun b => if b then 1 else 2) 0).1
  · exact (claim_C1 (fun b => if b then 1 else 2) 0).2.1 1 (by decide)
  · exact (claim_C1 (fun b => if b then 1 else 2) 0).2.2 false false

-- ///////////////////////////////////////////////////////////////////////
-- `WorkerThread::wait_until` and the cold wait loop (registry.rs 730-778)

/-- Sleep-subsystem calls made by the wait loop, recorded in order:
`sleep.start_looking`, `sleep.work_found`, `sleep.no_work_found`. -/
inductive SleepCall where
  | startLooking
  | workFound
  | noWorkFound
  deriving DecidableEq, Repr

/-- Environment of one worker running `wait_until`: its local deque, the
jobs a steal from peers would yield (in the order the scans would find
them), the registry's injector queue, the jobs executed so far (in
execution order), and the recorded Sleep calls. -/
structure WaitState where
  localDeque : List Nat
  stealable : List Nat
  injectorQ : List Nat
  executed : List Nat
  sleepTrace : List SleepCall
  deriving DecidableEq, Repr

/-- `WorkerThread::take_local_job` (registry.rs 717-725): pop from the
worker's own deque. -/
def WaitState.take_local_job (s : WaitState) : Option Nat × WaitState :=
  match s.localDeque with
  | [] => (none, s)
  | j :: rest => (some j, { s with localDeque := rest })

/-- Abstraction of `WorkerThread::steal` for the wait loop: the next job
a scan of the peers' deques would yield, if any.  (The scan itself is
modelled separately for the stealing claim.) -/
def WaitState.stealFromPeers (s : WaitState) : Option Nat × WaitState :=
  match s.stealable with
  | [] => (none, s)
  | j :: rest => (some j, { s with stealable := rest })

/-- `Registry::pop_injected_job` (registry.rs 421-434): pop the injector
queue, retrying internal `Steal::Retry` until success or empty. -/
def WaitState.pop_injected_job (s : WaitState) : Option Nat × WaitState :=
  match s.injectorQ with
  | [] => (none, s)
  | j :: rest => (some j, { s with injectorQ := rest })

/-- `WorkerThread::execute(job)` (registry.rs 780-783); the model
records the job as executed. -/
def WaitState.execute (s : WaitState) (j : Nat) : WaitState :=
  { s with executed := s.executed ++ [j] }

/-- Record one call into the Sleep subsystem. -/
def WaitState.sleepCall (s : WaitState) (c : SleepCall) : WaitState :=
  { s with sleepTrace := s.sleepTrace ++ [c] }

/-- The `while !latch.probe()` loop of `wait_until_cold` (registry.rs
746-771).  `latchCond` is the latch: it probes as a function of the jobs
executed so far.  Each iteration with the latch unset searches local
deque, then peers, then the injector; a found job is executed
(`work_found`, `execute`, fresh `start_looking`) and the search resumes;
otherwise `no_work_found` is recorded.  On exit the final `work_found`
of registry.rs line 771 is recorded.  `fuel` bounds the number of
iterations so the model is total; `none` means the loop was still
running when fuel ran out. -/
def wait_until_cold_go (latchCond : List Nat → Bool) :
    Nat → WaitState → Option WaitState
  | 0, _ => none
  | fuel + 1, s =>
    if latchCond s.executed then some (s.sleepCall SleepCall.workFound)
    else
      match WaitState.take_local_job s with
      | (some job, s1) =>
        wait_until_cold_go latchCond fuel
          (((s1.sleepCall SleepCall.workFound).execute job).sleepCall
            SleepCall.startLooking)
      | (none, s1) =>
        match WaitState.stealFromPeers s1 with
        | (some job, s2) =>
          wait_until_cold_go latchCond fuel
            (((s2.sleepCall SleepCall.workFound).execute job).sleepCall
              SleepCall.startLooking)
        | (none, s2) =>
          match WaitState.pop_injected_job s2 with
          | (some job, s3) =>
            wait_until_cold_go latchCond fuel
              (((s3.sleepCall SleepCall.workFound).execute job).sleepCall
                SleepCall.startLooking)
          | (none, s3) =>
            wait_until_cold_go latchCond fuel
              (s3.sleepCall SleepCall.noWorkFound)

/-- `WorkerThread::wait_until_cold` (registry.rs 737-778):
`sleep.start_looking` then the loop. -/
def wait_until_cold (latchCond : List Nat → Bool) (fuel : Nat)
    (s : WaitState) : Option WaitState :=
  wait_until_cold_go latchCond fuel (s.sleepCall SleepCall.startLooking)

/-- `WorkerThread::wait_until` (registry.rs 730-735): cheap probe; if
the latch is already set return at once, otherwise enter the cold
wait. -/
def wait_until (latchCond : List Nat → Bool) (fuel : Nat)
    (s : WaitState) : Option WaitState :=
  if latchCond s.executed then some s
  else wait_until_cold latchCond fuel s

theorem take_local_job_executed {s : WaitState} {o : Option Nat}
    {s1 : WaitState} (h : WaitState.take_local_job s = (o, s1)) :
    s1.executed = s.executed := by
  unfold WaitState.take_local_job at h
  cases hl : s.localDeque with
  | nil => rw [hl] at h; cases h; rfl
  | cons j rest => rw [hl] at h; cases h; rfl

theorem stealFromPeers_executed {s : WaitState} {o : Option Nat}
    {s1 : WaitState} (h : WaitState.stealFromPeers s = (o, s1)) :
    s1.executed = s.executed := by
  unfold WaitState.stealFromPeers at h
  cases hl : s.stealable with
  | nil => rw [hl] at h; cases h; rfl
  | cons j rest => rw [hl] at h; cases h; rfl

theorem pop_injected_job_executed {s : WaitState} {o : Option Nat}
    {s1 : WaitState} (h : WaitState.pop_injected_job s = (o, s1)) :
    s1.executed = s.executed := by
  unfold WaitState.pop_injected_job at h
  cases hl : s.injectorQ with
  | nil => rw [hl] at h; cases h; rfl
  | cons j rest => rw [hl] at h; cases h; rfl

/-- The wait loop only appends to the list of executed jobs. -/
theorem wait_go_executed_mono (latchCond : List Nat → Bool) :
    ∀ fuel (s s2 : WaitState),
      wait_until_cold_go latchCond fuel s = some s2 →
      s.executed <+: s2.executed := by
  intro fuel
  induction fuel with
  | zero =>
    intro s s2 h
    simp [wait_until_cold_go] at h
  | succ n ih =>
    intro s s2 h
    simp only [wait_until_cold_go] at h
    split at h
    · cases h
      exact List.prefix_refl _
    · split at h
      case _ job s1 heq =>
        have h1 := take_local_job_executed heq
        have h2 := ih _ _ h
        simp only [WaitState.sleepCall, WaitState.execute] at h2
        refine List.IsPrefix.trans ?_ h2
        rw [h1]
        exact ⟨[job], rfl⟩
      case _ s1 heq =>
        have h1 := take_local_job_executed heq
        split at h
        case _ job s2x heq2 =>
          have h1b := stealFromPeers_executed heq2
          have h2 := ih _ _ h
          simp only [WaitState.sleepCall, WaitState.execute] at h2
          refine List.IsPrefix.trans ?_ h2
          rw [h1b, h1]
          exact ⟨[job], rfl⟩
        case _ s2x heq2 =>
          have h1b := stealFromPeers_executed heq2
          split at h
          case _ job s3x heq3 =>
            have h1c := pop_injected_job_executed heq3
            have h2 := ih _ _ h
            simp only [WaitState.sleepCall, WaitState.execute] at h2
            refine List.IsPrefix.trans ?_ h2
            rw [h1c, h1b, h1]
            exact ⟨[job], rfl⟩
          case _ s3x heq3 =>
            have h1c := pop_injected_job_executed heq3
            have h2 := ih _ _ h
            simp only [WaitState.sleepCall] at h2
            rw [h1c, h1b, h1] at h2
            exact h2

/-- The wait loop returns only in a state where the latch probes set. -/
theorem wait_go_exit_probe (latchCond : List Nat → Bool) :
    ∀ fuel (s s2 : WaitState),
      wait_until_cold_go latchCond fuel s = some s2 →
      latchCond s2.executed = true := by
  intro fuel
  induction fuel with
  | zero =>
    intro s s2 h
    simp [wait_until_cold_go] at h
  | succ n ih =>
    intro s s2 h
    simp only [wait_until_cold_go] at h
    split at h
    case _ hc =>
      cases h
      exact hc
    · split at h
      case _ job s1 heq => exact ih _ _ h
      case _ s1 heq =>
        split at h
        case _ job s2x heq2 => exact ih _ _ h
        case _ s2x heq2 =>
          split at h
          case _ job s3x heq3 => exact ih _ _ h
          case _ s3x heq3 => exact ih _ _ h

/-- One iteration with the latch unset and a job in the local deque:
pop it, record `work_found`, execute it, start looking again. -/
theorem wait_step_local (c : List Nat → Bool) (n : Nat)
    (st iq ex : List Nat) (tr : List SleepCall) (j : Nat) (rest : List Nat)
    (hc : c ex = false) :
    wait_until_cold_go c (n + 1) ⟨j :: rest, st, iq, ex, tr⟩ =
      wait_until_cold_go c n
        ⟨rest, st, iq, ex ++ [j],
          (tr ++ [SleepCall.workFound]) ++ [SleepCall.startLooking]⟩ := by
  simp [wait_until_cold_go, WaitState.take_local_job, WaitState.execute,
    WaitState.sleepCall, hc]

/-- One iteration with the latch unset, an empty local deque and a
stealable peer job: steal it, record `work_found`, execute it, start
looking again. -/
theorem wait_step_steal (c : List Nat → Bool) (n : Nat)
    (iq ex : List Nat) (tr : List SleepCall) (j : Nat) (rest : List Nat)
    (hc : c ex = false) :
    wait_until_cold_go c (n + 1) ⟨[], j :: rest, iq, ex, tr⟩ =
      wait_until_cold_go c n
        ⟨[], rest, iq, ex ++ [j],
          (tr ++ [SleepCall.workFound]) ++ [SleepCall.startLooking]⟩ := by
  simp [wait_until_cold_go, WaitState.take_local_job, WaitState.stealFromPeers,
    WaitState.execute, WaitState.sleepCall, hc]

/-- One iteration with the latch unset, nothing local, nothing to
steal, and an injected job: pop the injector, record `work_found`,
execute it, start looking again. -/
theorem wait_step_injected (c : List Nat → Bool) (n : Nat)
    (ex : List Nat) (tr : List SleepCall) (j : Nat) (rest : List Nat)
    (hc : c ex = false) :
    wait_until_cold_go c (n + 1) ⟨[], [], j :: rest, ex, tr⟩ =
      wait_until_cold_go c n
        ⟨[], [], rest, ex ++ [j],
          (tr ++ [SleepCall.workFound]) ++ [SleepCall.startLooking]⟩ := by
  simp [wait_until_cold_go, WaitState.take_local_job, WaitState.stealFromPeers,
    WaitState.pop_injected_job, WaitState.execute, WaitState.sleepCall, hc]

/-- C2: `wait_until(latch)` returns at once, with the state untouched,
when the latch already probes set; otherwise each loop iteration with
the latch unset looks for a job locally first, then among peers, then in
the injector queue (the first job available in that order is the next
one executed); every found job is executed and the search resumes; the
loop exits exactly when the latch probes set, so it never returns while
the latch is unset and every returned state has the latch set. -/
theorem claim_C2 (c : List Nat → Bool) (fuel : Nat) (s : WaitState) :
    (c s.executed = true → wait_until c fuel s = some s) ∧
    (∀ s2 : WaitState, wait_until c fuel s = some s2 →
      c s2.executed = true) ∧
    ((∀ l : List Nat, c l = false) → wait_until c fuel s = none) ∧
    (∀ (j : Nat) (rest : List Nat) (s2 : WaitState),
      c s.executed = false → s.localDeque = j :: rest →
      wait_until c fuel s = some s2 →
      s.executed ++ [j] <+: s2.executed) ∧
    (∀ (j : Nat) (rest : List Nat) (s2 : WaitState),
      c s.executed = false → s.localDeque = [] → s.stealable = j :: rest →
      wait_until c fuel s = some s2 →
      s.executed ++ [j] <+: s2.executed) ∧
    (∀ (j : Nat) (rest : List Nat) (s2 : WaitState),
      c s.executed = false → s.localDeque = [] → s.stealable = [] →
      s.injectorQ = j :: rest →
      wait_until c fuel s = some s2 →
      s.executed ++ [j] <+: s2.executed) := by
  refine ⟨?_, ?_, ?_, ?_, ?_, ?_⟩
  · intro hc
    simp [wait_until, hc]
  · intro s2 h
    by_cases hc : c s.executed = true
    · simp only [wait_until, hc, if_true] at h
      cases h
      exact hc
    · unfold wait_until at h
      rw [if_neg hc] at h
      exact wait_go_exit_probe c fuel _ _ h
  · intro hall
    cases heq : wait_until c fuel s with
    | none => rfl
    | some s2 =>
      exfalso
      unfold wait_until at heq
      rw [if_neg (by simp [hall s.executed])] at heq
      have h2 := wait_go_exit_probe c fuel _ _ heq
      rw [hall s2.executed] at h2
      exact Bool.false_ne_true h2
  · intro j rest s2 hc hl h
    obtain ⟨ld, st, iq, ex, tr⟩ := s
    simp only at hc hl ⊢
    subst hl
    unfold wait_until at h
    rw [if_neg (by simp [hc])] at h
    unfold wait_until_cold at h
    simp only [WaitState.sleepCall] at h
    cases fuel with
    | zero => simp [wait_until_cold_go] at h
    | succ n =>
      rw [wait_step_local c n st iq ex _ j rest hc] at h
      have hm := wait_go_executed_mono c n _ _ h
      exact hm
  · intro j rest s2 hc hl hs h
    obtain ⟨ld, st, iq, ex, tr⟩ := s
    simp only at hc hl hs ⊢
    subst hl
    subst hs
    unfold wait_until at h
    rw [if_neg (by simp [hc])] at h
    unfold wait_until_cold at h
    simp only [WaitState.sleepCall] at h
    cases fuel with
    | zero => simp [wait_until_cold_go] at h
    | succ n =>
      rw [wait_step_steal c n iq ex _ j rest hc] at h
      have hm := wait_go_executed_mono c n _ _ h
      exact hm
  · intro j rest s2 hc hl hs hq h
    obtain ⟨ld, st, iq, ex, tr⟩ := s
    simp only at hc hl hs hq ⊢
    subst hl
    subst hs
    subst hq
    unfold wait_until at h
    rw [if_neg (by simp [hc])] at h
    unfold wait_until_cold at h
    simp only [WaitState.sleepCall] at h
    cases fuel with
    | zero => simp [wait_until_cold_go] at h
    | succ n =>
      rw [wait_step_injected c n ex _ j rest hc] at h
      have hm := wait_go_executed_mono c n _ _ h
      exact hm

/-- Witness latch: set once any job has executed. -/
def c2w : List Nat → Bool := fun l => !l.isEmpty

/-- Witness latch that is never set. -/
def c2never : List Nat → Bool := fun _ => false

/-- Witness state whose latch is already set. -/
def c2sA : WaitState := ⟨[], [], [], [3], []⟩

/-- Witness state with one local job. -/
def c2s0 : WaitState := ⟨[7], [], [], [], []⟩

/-- Witness state with one stealable peer job. -/
def c2s1 : WaitState := ⟨[], [9], [], [], []⟩

/-- Witness state with one injected job. -/
def c2s2 : WaitState := ⟨[], [], [11], [], []⟩

/-- Result of running the wait loop from `c2s0` under `c2w`. -/
def c2r0 : WaitState :=
  ⟨[], [], [], [7],
   [SleepCall.startLooking, SleepCall.workFound, SleepCall.startLooking,
    SleepCall.workFound]⟩

/-- Result of running the wait loop from `c2s1` under `c2w`. -/
def c2r1 : WaitState :=
  ⟨[], [], [], [9],
   [SleepCall.startLooking, SleepCall.workFound, SleepCall.startLooking,
    SleepCall.workFound]⟩

/-- Result of running the wait loop from `c2s2` under `c2w`. -/
def c2r2 : WaitState :=
  ⟨[], [], [], [11],
   [SleepCall.startLooking, SleepCall.workFound, SleepCall.startLooking,
    SleepCall.workFound]⟩

theorem claim_C2_witness :
    (c2w c2sA.executed = true ∧ wait_until c2w 5 c2sA = some c2sA) ∧
    (wait_until c2w 5 c2s0 = some c2r0 ∧ c2w c2r0.executed = true) ∧
    (wait_until c2never 5 c2s0 = none) ∧
    (c2s0.executed ++ [7] <+: c2r0.executed) ∧
    (wait_until c2w 5 c2s1 = some c2r1 ∧
      c2s1.executed ++ [9] <+: c2r1.executed) ∧
    (wait_until c2w 5 c2s2 = some c2r2 ∧
      c2s2.executed ++ [11] <+: c2r2.executed) := by
  have h0 : wait_until c2w 5 c2s0 = some c2r0 := by rfl
  have h1 : wait_until c2w 5 c2s1 = some c2r1 := by rfl
  have h2 : wait_until c2w 5 c2s2 = some c2r2 := by rfl
  refine ⟨⟨rfl, ?_⟩, ⟨h0, ?_⟩, ?_, ?_, ⟨h1, ?_⟩, ⟨h2, ?_⟩⟩
  · exact (claim_C2 c2w 5 c2sA).1 rfl
  · exact (claim_C2 c2w 5 c2s0).2.1 c2r0 h0
  · exact (claim_C2 c2never 5 c2s0).2.2.1 (fun _ => rfl)
  · exact (claim_C2 c2w 5 c2s0).2.2.2.1 7 [] c2r0 rfl rfl h0
  · exact (claim_C2 c2w 5 c2s1).2.2.2.2.1 9 [] c2r1 rfl rfl rfl h1
  · exact (claim_C2 c2w 5 c2s2).2.2.2.2.2 11 [] c2r2 rfl rfl rfl rfl h2

-- ///////////////////////////////////////////////////////////////////////
-- `WorkerThread::steal` and `XorShift64Star` (registry.rs 789-836, 925-964)

/-- Result of one `stealer.steal()` attempt on a victim
(`crossbeam_deque::Steal`). -/
inductive StealResult where
  | success (j : Nat)
  | empty
  | retry
  deriving DecidableEq, Repr

/-- `XorShift64Star::next` (registry.rs 950-958) on a 64-bit state:
three xor-shifts update the state and the output is the state times
`0x2545_f491_4f6c_dd1d`, both modulo `2 ^ 64`.  Returns
`(new state, output)`. -/
def xorshiftNext (s0 : Nat) : Nat × Nat :=
  let x1 := s0 ^^^ (s0 >>> 12)
  let x2 := (x1 ^^^ (x1 <<< 25)) % USIZE
  let x3 := x2 ^^^ (x2 >>> 27)
  (x3, (x3 * 0x2545f4914f6cdd1d) % USIZE)

/-- The victim visit order of one scan: `(start..num_threads)` chained
with `(0..start)` (registry.rs 811-812). -/
def scanIndices (start n : Nat) : List Nat :=
  List.range' start (n - start) ++ List.range start

/-- The `filter(|&i| i != self).find_map(...)` body of the scan
(registry.rs 811-831): walk the victim order, skip our own index,
return the first successful steal, and remember whether any victim
answered `Retry`. -/
def scanRound (self : Nat) (out : Nat → StealResult) :
    List Nat → Bool → Option Nat × Bool
  | [], retry => (none, retry)
  | i :: rest, retry =>
    if i = self then scanRound self out rest retry
    else
      match out i with
      | StealResult.success j => (some j, retry)
      | StealResult.empty => scanRound self out rest retry
      | StealResult.retry => scanRound self out rest true

/-- Specification function: the first index in the list whose steal
attempt succeeds, with the job it yields. -/
def firstSuccess (out : Nat → StealResult) : List Nat → Option (Nat × Nat)
  | [] => none
  | i :: rest =>
    match out i with
    | StealResult.success j => some (i, j)
    | _ => firstSuccess out rest

/-- One iteration of the `loop` in `steal` (registry.rs 800-835): draw
`start = next_usize(num_threads)` from the RNG and scan.  Returns the
scan result (first stolen job, retry-seen flag) and the advanced RNG
state. -/
def stealRound (self n : Nat) (out : Nat → StealResult) (rngState : Nat) :
    (Option Nat × Bool) × Nat :=
  ((scanRound self out (scanIndices ((xorshiftNext rngState).2 % n) n) false),
   (xorshiftNext rngState).1)

/-- The retry `loop` of `steal`: round `round` sees the victim answers
`env round`; a round that stole a job, or saw no retry, returns; a round
with no success but a retry restarts with a fresh random start.  `fuel`
bounds the rounds; `none` means the loop was still retrying when fuel
ran out. -/
def stealLoop (self n : Nat) (env : Nat → Nat → StealResult) :
    Nat → Nat → Nat → Option (Option Nat)
  | 0, _, _ => none
  | fuel + 1, rngState, round =>
    if (stealRound self n (env round) rngState).1.1.isSome
        || !(stealRound self n (env round) rngState).1.2 then
      some (stealRound self n (env round) rngState).1.1
    else
      stealLoop self n env fuel
        (stealRound self n (env round) rngState).2 (round + 1)

/-- `WorkerThread::steal` (registry.rs 789-836): `None` at once when the
pool has at most one thread, otherwise the retry loop of scans. -/
def WorkerThread.steal (self n : Nat) (env : Nat → Nat → StealResult)
    (fuel rngState : Nat) : Option (Option Nat) :=
  if n ≤ 1 then some none
  else stealLoop self n env fuel rngState 0

/-- The scan returns exactly the first successful steal among the
victims in visit order with the worker's own index skipped. -/
theorem scanRound_fst_eq_firstSuccess (self : Nat) (out : Nat → StealResult) :
    ∀ (order : List Nat) (b : Bool),
      (scanRound self out order b).1 =
        (firstSuccess out (order.filter (fun i => i != self))).map Prod.snd := by
  intro order
  induction order with
  | nil => intro b; rfl
  | cons i rest ih =>
    intro b
    by_cases hi : i = self
    · rw [show (scanRound self out (i :: rest) b) =
        scanRound self out rest b by simp [scanRound, hi]]
      rw [show ((i :: rest).filter (fun i => i != self)) =
        rest.filter (fun i => i != self) by simp [List.filter, hi]]
      exact ih b
    · rw [show ((i :: rest).filter (fun i => i != self)) =
        i :: rest.filter (fun i => i != self) by simp [hi]]
      cases hout : out i with
      | success j =>
        rw [show (scanRound self out (i :: rest) b) = (some j, b) by
          simp [scanRound, hi, hout]]
        rw [show firstSuccess out (i :: rest.filter (fun i => i != self)) =
          some (i, j) by simp [firstSuccess, hout]]
        rfl
      | empty =>
        rw [show (scanRound self out (i :: rest) b) =
          scanRound self out rest b by simp [scanRound, hi, hout]]
        rw [show firstSuccess out (i :: rest.filter (fun i => i != self)) =
          firstSuccess out (rest.filter (fun i => i != self)) by
          simp [firstSuccess, hout]]
        exact ih b
      | retry =>
        rw [show (scanRound self out (i :: rest) b) =
          scanRound self out rest true by simp [scanRound, hi, hout]]
        rw [show firstSuccess out (i :: rest.filter (fun i => i != self)) =
          firstSuccess out (rest.filter (fun i => i != self)) by
          simp [firstSuccess, hout]]
        exact ih true

/-- C3: `steal()` returns `None` at once when the pool has at most one
thread; otherwise each round draws `start = rng.next_usize(n)` (a value
in `0..n` from the worker's RNG) and scans the victims in round-robin
order from `start`, skipping the worker's own index; the scan returns
the first successful steal; a round that stole a job returns it; a
round with no success but at least one `Retry` restarts the whole scan
with a fresh random start; and `None` is returned only after a round
whose scan saw no success and no retry. -/
theorem claim_C3 (self n : Nat) (env : Nat → Nat → StealResult) :
    (∀ fuel st : Nat, n ≤ 1 →
      WorkerThread.steal self n env fuel st = some none) ∧
    (∀ (out : Nat → StealResult) (st : Nat), 0 < n →
      stealRound self n out st =
        (scanRound self out (scanIndices ((xorshiftNext st).2 % n) n) false,
         (xorshiftNext st).1) ∧
      (xorshiftNext st).2 % n < n) ∧
    (∀ (out : Nat → StealResult) (order : List Nat),
      (scanRound self out order false).1 =
        (firstSuccess out (order.filter (fun i => i != self))).map
          Prod.snd) ∧
    (∀ fuel st round st2 : Nat,
      stealRound self n (env round) st = ((none, true), st2) →
      stealLoop self n env (fuel + 1) st round =
        stealLoop self n env fuel st2 (round + 1)) ∧
    (∀ fuel st round j : Nat,
      (stealRound self n (env round) st).1.1 = some j →
      stealLoop self n env (fuel + 1) st round = some (some j)) ∧
    (∀ fuel st round : Nat,
      stealLoop self n env fuel st round = some none →
      ∃ k st2 : Nat,
        (stealRound self n (env k) st2).1.1 = none ∧
        (stealRound self n (env k) st2).1.2 = false) := by
  refine ⟨?_, ?_, ?_, ?_, ?_, ?_⟩
  · intro fuel st h
    unfold WorkerThread.steal
    rw [if_pos h]
  · intro out st h
    exact ⟨rfl, Nat.mod_lt _ h⟩
  · intro out order
    exact scanRound_fst_eq_firstSuccess self out order false
  · intro fuel st round st2 h
    simp only [stealLoop]
    rw [h]
    simp
  · intro fuel st round j h
    simp only [stealLoop]
    rw [h]
    simp
  · intro fuel
    induction fuel with
    | zero =>
      intro st round h
      simp [stealLoop] at h
    | succ m ih =>
      intro st round h
      simp only [stealLoop] at h
      by_cases hcond : ((stealRound self n (env round) st).1.1.isSome
          || !(stealRound self n (env round) st).1.2) = true
      · rw [if_pos hcond] at h
        have hjob : (stealRound self n (env round) st).1.1 = none :=
          Option.some.inj h
        rw [hjob] at hcond
        simp only [Option.isSome_none, Bool.false_or, Bool.not_eq_true'] at hcond
        exact ⟨round, st, hjob, hcond⟩
      · rw [if_neg hcond] at h
        exact ih _ _ h

/-- Witness environment: every victim always answers `Retry`. -/
def c3retry : Nat → Nat → StealResult := fun _ _ => StealResult.retry

/-- Witness environment: every victim is always empty. -/
def c3empty : Nat → Nat → StealResult := fun _ _ => StealResult.empty

/-- Witness environment: victim `i` always yields job `100 + i`. -/
def c3succ : Nat → Nat → StealResult := fun _ i => StealResult.success (100 + i)

/-- Witness victim answers for the scan-order conjunct: only victim 2
has a job. -/
def c3onlyTwo : Nat → StealResult :=
  fun i => if i = 2 then StealResult.success 99 else StealResult.empty

theorem claim_C3_witness :
    ((4 : Nat) ≤ 1 → False) ∧
    (WorkerThread.steal 0 1 c3retry 3 5 = some none) ∧
    (stealRound 0 4 (c3empty 0) 1 =
        (scanRound 0 (c3empty 0)
          (scanIndices ((xorshiftNext 1).2 % 4) 4) false,
         (xorshiftNext 1).1) ∧
      (xorshiftNext 1).2 % 4 < 4) ∧
    ((scanRound 0 c3onlyTwo [1, 2, 3] false).1 =
      (firstSuccess c3onlyTwo ([1, 2, 3].filter (fun i => i != 0))).map
        Prod.snd) ∧
    (stealRound 0 4 (c3retry 0) 1 = ((none, true), 33554433) ∧
      stealLoop 0 4 c3retry 1 1 0 = stealLoop 0 4 c3retry 0 33554433 1) ∧
    ((stealRound 0 4 (c3succ 0) 1).1.1 = some 101 ∧
      stealLoop 0 4 c3succ 1 1 0 = some (some 101)) ∧
    (stealLoop 0 4 c3empty 1 1 0 = some none ∧
      ∃ k st2 : Nat,
        (stealRound 0 4 (c3empty k) st2).1.1 = none ∧
        (stealRound 0 4 (c3empty k) st2).1.2 = false) := by
  have hretry : stealRound 0 4 (c3retry 0) 1 = ((none, true), 33554433) := by
    decide
  have hsucc : (stealRound 0 4 (c3succ 0) 1).1.1 = some 101 := by
    decide
  have hempty : stealLoop 0 4 c3empty 1 1 0 = some none := by
    decide
  refine ⟨by omega, ?_, ?_, ?_, ⟨hretry, ?_⟩, ⟨hsucc, ?_⟩, ⟨hempty, ?_⟩⟩
  · exact (claim_C3 0 1 c3retry).1 3 5 (by omega)
  · exact (claim_C3 0 4 c3empty).2.1 (c3empty 0) 1 (by omega)
  · exact (claim_C3 0 4 c3empty).2.2.1 c3onlyTwo [1, 2, 3]
  · exact (claim_C3 0 4 c3retry).2.2.2.1 0 1 0 33554433 hretry
  · exact (claim_C3 0 4 c3succ).2.2.2.2.1 0 1 0 101 hsucc
  · exact (claim_C3 0 4 c3empty).2.2.2.2.2 1 1 0 hempty
